import Mathlib

/-!
Shallow embedding of the rope-to-synth toy (`src/src/App.vue`, current
variant, and `src/unnamed/part_000`, an earlier variant of the same
component) together with proofs about the claims of its specification.

Numbers are modelled idealised: JS `number` arithmetic becomes exact
arithmetic in a linear ordered field (`ℚ` where we evaluate, `ℝ` where
`Math.sqrt` / `Math.atan2` / `Math.PI` force real values).  A separate
small model with an explicit non-finite value (`Option ℝ`, `none` for a
NaN-like result) is used for the places where the claims are about
IEEE-specific behaviour (`0/0`, comparisons against NaN).
-/

namespace WebGenVis

open Real

variable {α : Type} [LinearOrderedField α]

/-- The `PENTATONIC_FREQUENCIES` constant of `App.vue` (lines 34-51):
the fixed pentatonic scale, A2 to A5, in ascending order. -/
def PENTATONIC_FREQUENCIES : List α :=
  [110.0, 130.81, 146.83, 164.81, 196.0, 220.0, 261.63, 293.66,
   329.63, 392.0, 440.0, 523.25, 587.33, 659.25, 783.99, 880.0]

/-- The reducer closure of `findClosestPentatonicFrequency` (`App.vue`
lines 95-97): keep `curr` only when it is strictly closer to `freq`,
so on an exact tie the earlier element (`prev`) is kept. -/
def closeStep (freq prev curr : α) : α :=
  if |curr - freq| < |prev - freq| then curr else prev

/-- `findClosestPentatonicFrequency` (`App.vue` lines 94-98).  JS
`Array.prototype.reduce` without an initial value starts from the first
element; the empty branch is unreachable for the fixed 16-element scale
(JS would throw there). -/
def findClosestPentatonicFrequency (freq : α) : α :=
  match (PENTATONIC_FREQUENCIES : List α) with
  | [] => 0
  | p :: rest => rest.foldl (closeStep freq) p

/-- The expression `Math.min((ropeLength - 150) / (500 - 150), 1)` that
`App.vue` repeats at lines 249, 264, 326 (and `part_000` at lines
208-211, 230-233): rope length normalised over the interval 150-500,
clamped above at 1 only. -/
def normalizedRopeLength (ropeLength : α) : α :=
  min ((ropeLength - 150) / (500 - 150)) 1

/-- `lerp` (`App.vue` lines 222-224); the source parameter names are
`start`, `end`, `t` (`end` is a reserved word here). -/
def lerp (start stop t : α) : α :=
  start + (stop - start) * t

/-- The numeric fields of the `PARAMETERS` object of `App.vue` (lines
23-31); the two oscillator-type strings are omitted. -/
structure SynthParameters (β : Type) where
  minLFOFreq : β
  maxLFOFreq : β
  lfoGain : β
  minOscillatorGain : β
  maxOscillatorGain : β

/-- `PARAMETERS` (`App.vue` lines 23-31). -/
def PARAMETERS : SynthParameters α :=
  ⟨0.1, 15, 3, 150, 500⟩

/-- A screen-space point, the `{x, y}` records of the source. -/
@[ext]
structure Pt where
  x : ℝ
  y : ℝ

/-- `calculateRopeLength` (`App.vue` lines 226-228):
`Math.sqrt(Math.pow(x2 - x1, 2) + Math.pow(y2 - y1, 2))`.  A pure
function of its four arguments. -/
noncomputable def calculateRopeLength (x1 y1 x2 y2 : ℝ) : ℝ :=
  Real.sqrt ((x2 - x1) ^ 2 + (y2 - y1) ^ 2)

/-- `Math.atan2(y, x)` on (ideal) real numbers.  On the reals there is
no signed zero, so the result ranges over `(-π, π]` and
`atan2 0 0 = 0` (as JS returns for `+0, +0`). -/
noncomputable def atan2 (y x : ℝ) : ℝ :=
  if 0 < x then Real.arctan (y / x)
  else if x < 0 then
    if 0 ≤ y then Real.arctan (y / x) + π else Real.arctan (y / x) - π
  else
    if 0 < y then π / 2 else if y < 0 then -(π / 2) else 0

/-- `calculateAngle` (`App.vue` lines 230-235): the angle between the
rope and the vertical axis, `Math.atan2(dx, dy)` (note the swapped
argument order relative to the usual mathematical convention).  A pure
function of its four arguments. -/
noncomputable def calculateAngle (x1 y1 x2 y2 : ℝ) : ℝ :=
  atan2 (x2 - x1) (y2 - y1)

/-- `calculateRestPosition` (`App.vue` lines 157-176) on ideal reals.
`radius` is the fixed `200 / 2 + 20` of line 160; the window centre is
passed explicitly where the source reads the `windowCenter` ref.  Note
there is no guard against `distance = 0`; real-number division by zero
is `0` in this idealised model (the IEEE behaviour is modelled
separately by `calculateRestPositionJS`). -/
noncomputable def calculateRestPosition (windowCenter : Pt) (mouseX mouseY : ℝ) : Pt :=
  let radius : ℝ := 200 / 2 + 20
  let dx := mouseX - windowCenter.x
  let dy := mouseY - windowCenter.y
  let distance := Real.sqrt (dx * dx + dy * dy)
  let normalizedX := dx / distance
  let normalizedY := dy / distance
  ⟨windowCenter.x + normalizedX * radius, windowCenter.y + normalizedY * radius⟩

/-- The reactive geometry state of `App.vue`: `isDragging`,
`mousePosition`, `windowCenter`, `restPosition`, `currentRopeEnd`. -/
structure RopeState where
  isDragging : Bool
  mousePosition : Pt
  windowCenter : Pt
  restPosition : Pt
  currentRopeEnd : Pt

/-- The state change of `handleMouseUp` (`App.vue` lines 206-213):
dragging ends and the rest position is recomputed from the recorded
mouse position.  The gain-fade side effect on the audio graph (line
209) has no geometric content and is not part of this state. -/
noncomputable def handleMouseUp (s : RopeState) : RopeState :=
  ⟨false, s.mousePosition, s.windowCenter,
   calculateRestPosition s.windowCenter s.mousePosition.x s.mousePosition.y,
   s.currentRopeEnd⟩

/-- The per-frame geometry update of `animate` (`App.vue` lines
305-313): one tick of the exponential smoothing of `currentRopeEnd`
toward the pointer (factor 0.2) or the rest position (factor 0.01).
The drawing, window-resizing and `updateAudio` calls of `animate` read
this state but do not change it. -/
noncomputable def animate (s : RopeState) : RopeState :=
  let lerpFactor : ℝ := if s.isDragging then 0.2 else 0.01
  let targetX := if s.isDragging then s.mousePosition.x else s.restPosition.x
  let targetY := if s.isDragging then s.mousePosition.y else s.restPosition.y
  ⟨s.isDragging, s.mousePosition, s.windowCenter, s.restPosition,
   ⟨lerp s.currentRopeEnd.x targetX lerpFactor,
    lerp s.currentRopeEnd.y targetY lerpFactor⟩⟩

/-- Euclidean distance from the current rope end to the rest position,
measured with the source's own `calculateRopeLength`. -/
noncomputable def distToRest (s : RopeState) : ℝ :=
  calculateRopeLength s.restPosition.x s.restPosition.y
    s.currentRopeEnd.x s.currentRopeEnd.y

/-- The per-tick synth parameter targets computed by `updateAudio`
(`App.vue` lines 237-292). -/
structure AudioCommands where
  cutoffFrequency : ℝ
  lfoFrequency : ℝ
  oscFrequencyTarget : ℝ
  gainTarget : ℝ

/-- `updateAudio` (`App.vue` lines 237-292) as a pure function from the
geometry it reads (window centre, rope end, rope length) and the LFO
gain value it reads back (`lfoGain.gain.value`, line 272) to the four
parameter targets it writes.  The guard on non-null audio handles is
the caller's concern. -/
noncomputable def updateAudio (windowCenter currentRopeEnd : Pt)
    (ropeLength lfoGainValue : ℝ) : AudioCommands :=
  let angle := calculateAngle windowCenter.x windowCenter.y
    currentRopeEnd.x currentRopeEnd.y
  let minCutoff : ℝ := 0
  let maxCutoff : ℝ := 5000
  let cutoffFrequency := minCutoff + normalizedRopeLength ropeLength * (maxCutoff - minCutoff)
  let normalizedAngle := (angle + π) / (2 * π)
  let baseFrequency := 110 + normalizedAngle * 770
  let snappedFrequency := findClosestPentatonicFrequency baseFrequency
  let lfoFrequency := (PARAMETERS : SynthParameters ℝ).minLFOFreq +
    normalizedRopeLength ropeLength *
      ((PARAMETERS : SynthParameters ℝ).maxLFOFreq - (PARAMETERS : SynthParameters ℝ).minLFOFreq)
  let oscFrequencyTarget := snappedFrequency + lfoGainValue
  let targetGain : ℝ :=
    if (PARAMETERS : SynthParameters ℝ).minOscillatorGain < ropeLength then
      min ((ropeLength - (PARAMETERS : SynthParameters ℝ).minOscillatorGain) /
        ((PARAMETERS : SynthParameters ℝ).maxOscillatorGain -
          (PARAMETERS : SynthParameters ℝ).minOscillatorGain)) 1 * 0.4
    else 0
  ⟨cutoffFrequency, lfoFrequency, oscFrequencyTarget, targetGain⟩

/-- The per-tick synth parameter targets of the earlier variant
(`part_000` lines 191-240), which has no filter stage. -/
structure AudioCommandsV0 where
  lfoFrequency : ℝ
  oscFrequencyTarget : ℝ
  gainTarget : ℝ

/-- `updateAudio` of the earlier variant (`part_000` lines 191-240):
the base frequency range is 200-800 Hz, there is no pentatonic
snapping, and the gain cap is 0.75. -/
noncomputable def updateAudio_v0 (windowCenter currentRopeEnd : Pt)
    (ropeLength lfoGainValue : ℝ) : AudioCommandsV0 :=
  let angle := calculateAngle windowCenter.x windowCenter.y
    currentRopeEnd.x currentRopeEnd.y
  let normalizedAngle := (angle + π) / (2 * π)
  let baseFrequency := 200 + normalizedAngle * 600
  let minLFODepth : ℝ := 0.5
  let maxLFODepth : ℝ := 5
  let lfoFrequency := minLFODepth +
    normalizedRopeLength ropeLength * (maxLFODepth - minLFODepth) * 20
  let oscFrequencyTarget := baseFrequency + lfoGainValue
  let minGainDistance : ℝ := 150
  let maxGainDistance : ℝ := 500
  let targetGain : ℝ :=
    if minGainDistance < ropeLength then
      min ((ropeLength - minGainDistance) / (maxGainDistance - minGainDistance)) 1 * 0.75
    else 0
  ⟨lfoFrequency, oscFrequencyTarget, targetGain⟩

/-! ### Helper lemmas about the reduce of `findClosestPentatonicFrequency` -/

lemma closeStep_eq_or (f a c : α) : closeStep f a c = a ∨ closeStep f a c = c := by
  unfold closeStep
  split
  · exact Or.inr rfl
  · exact Or.inl rfl

lemma closeStep_le_left (f a c : α) : |closeStep f a c - f| ≤ |a - f| := by
  unfold closeStep
  split
  · exact le_of_lt (by assumption)
  · exact le_refl _

lemma closeStep_le_right (f a c : α) : |closeStep f a c - f| ≤ |c - f| := by
  unfold closeStep
  split
  · exact le_refl _
  · exact le_of_not_lt (by assumption)

lemma foldl_closeStep_mem (f : α) (xs : List α) :
    ∀ a, xs.foldl (closeStep f) a = a ∨ xs.foldl (closeStep f) a ∈ xs := by
  induction xs with
  | nil => exact fun a => Or.inl rfl
  | cons c t ih =>
    intro a
    rw [List.foldl_cons]
    rcases ih (closeStep f a c) with h | h
    · rcases closeStep_eq_or f a c with h2 | h2
      · exact Or.inl (h.trans h2)
      · rw [h.trans h2]
        exact Or.inr (List.mem_cons_self c t)
    · exact Or.inr (List.mem_cons_of_mem c h)

lemma foldl_closeStep_le (f : α) (xs : List α) :
    ∀ a, |xs.foldl (closeStep f) a - f| ≤ |a - f| ∧
      ∀ y ∈ xs, |xs.foldl (closeStep f) a - f| ≤ |y - f| := by
  induction xs with
  | nil =>
    intro a
    refine ⟨le_refl _, ?_⟩
    intro y hy
    cases hy
  | cons c t ih =>
    intro a
    rw [List.foldl_cons]
    obtain ⟨h1, h2⟩ := ih (closeStep f a c)
    refine ⟨h1.trans (closeStep_le_left f a c), ?_⟩
    intro y hy
    rcases List.mem_cons.mp hy with rfl | hy
    · exact h1.trans (closeStep_le_right f a y)
    · exact h2 y hy

lemma foldl_closeStep_tie (f : α) (xs : List α) :
    ∀ a, (∀ y ∈ xs, a < y) → List.Pairwise (fun p q => p < q) xs →
      ∀ y, (y = a ∨ y ∈ xs) → |y - f| = |xs.foldl (closeStep f) a - f| →
        xs.foldl (closeStep f) a ≤ y := by
  induction xs with
  | nil =>
    intro a _ _ y hy _
    rcases hy with hya | hy
    · rw [List.foldl_nil, hya]
    · cases hy
  | cons c t ih =>
    intro a hlt hpw y hy hEq
    rw [List.foldl_cons] at hEq ⊢
    have hac : a < c := hlt c (List.mem_cons_self c t)
    obtain ⟨hct, hpt⟩ := List.pairwise_cons.mp hpw
    by_cases hcond : |c - f| < |a - f|
    · have hstep : closeStep f a c = c := by
        unfold closeStep
        rw [if_pos hcond]
      rw [hstep] at hEq ⊢
      rcases hy with hya | hy
      · exfalso
        have hle := (foldl_closeStep_le f t c).1
        have hlt2 : |t.foldl (closeStep f) c - f| < |a - f| := lt_of_le_of_lt hle hcond
        rw [← hya, hEq] at hlt2
        exact lt_irrefl _ hlt2
      · exact ih c hct hpt y (List.mem_cons.mp hy) hEq
    · have hstep : closeStep f a c = a := by
        unfold closeStep
        rw [if_neg hcond]
      rw [hstep] at hEq ⊢
      have hta : ∀ z ∈ t, a < z := fun z hz => hlt z (List.mem_cons_of_mem c hz)
      rcases hy with hya | hy
      · exact ih a hta hpt y (Or.inl hya) hEq
      · rcases List.mem_cons.mp hy with hyc | hyt
        · have h1 : |t.foldl (closeStep f) a - f| ≤ |a - f| := (foldl_closeStep_le f t a).1
          have h2 : |a - f| ≤ |c - f| := le_of_not_lt hcond
          have hEq3 : |a - f| = |t.foldl (closeStep f) a - f| := by
            refine le_antisymm ?_ h1
            rw [← hyc] at h2
            rw [hEq] at h2
            exact h2
          have hra : t.foldl (closeStep f) a ≤ a := ih a hta hpt a (Or.inl rfl) hEq3
          rw [hyc]
          exact hra.trans (le_of_lt hac)
        · exact ih a hta hpt y (Or.inr hyt) hEq


/-! ### The range of the `atan2` model -/

lemma atan2_range (y x : ℝ) : -π < atan2 y x ∧ atan2 y x ≤ π := by
  have hpi := Real.pi_pos
  unfold atan2
  split_ifs with h1 h2 h3 h4 h5
  · have ha := Real.arctan_lt_pi_div_two (y / x)
    have hb := Real.neg_pi_div_two_lt_arctan (y / x)
    constructor
    · linarith
    · linarith
  · have hdiv : y / x ≤ 0 := div_nonpos_iff.mpr (Or.inl ⟨h3, le_of_lt h2⟩)
    have hle : Real.arctan (y / x) ≤ 0 := by
      have hm := Real.arctan_strictMono.monotone hdiv
      rwa [Real.arctan_zero] at hm
    have hb := Real.neg_pi_div_two_lt_arctan (y / x)
    constructor
    · linarith
    · linarith
  · have hdiv : 0 < y / x := div_pos_iff.mpr (Or.inr ⟨lt_of_not_le h3, h2⟩)
    have hgt : 0 < Real.arctan (y / x) := by
      have hm := Real.arctan_strictMono hdiv
      rwa [Real.arctan_zero] at hm
    have ha := Real.arctan_lt_pi_div_two (y / x)
    constructor
    · linarith
    · linarith
  · constructor
    · linarith
    · linarith
  · constructor
    · linarith
    · linarith
  · constructor
    · linarith
    · linarith

lemma findClosest_def (f : α) :
    findClosestPentatonicFrequency f =
      List.foldl (closeStep f) (110.0 : α)
        [130.81, 146.83, 164.81, 196.0, 220.0, 261.63, 293.66,
         329.63, 392.0, 440.0, 523.25, 587.33, 659.25, 783.99, 880.0] := rfl

lemma pent_cons :
    (PENTATONIC_FREQUENCIES : List α) =
      (110.0 : α) ::
        [130.81, 146.83, 164.81, 196.0, 220.0, 261.63, 293.66,
         329.63, 392.0, 440.0, 523.25, 587.33, 659.25, 783.99, 880.0] := rfl

lemma pent_pairwise :
    List.Pairwise (fun p q => p < q) (PENTATONIC_FREQUENCIES : List α) := by
  rw [← List.chain'_iff_pairwise]
  norm_num [PENTATONIC_FREQUENCIES, List.chain'_cons]

lemma pent_bounds :
    ∀ y ∈ (PENTATONIC_FREQUENCIES : List α), (110 : α) ≤ y ∧ y ≤ 880 := by
  intro y hy
  simp only [PENTATONIC_FREQUENCIES, List.mem_cons, List.not_mem_nil, or_false] at hy
  rcases hy with rfl | rfl | rfl | rfl | rfl | rfl | rfl | rfl | rfl | rfl | rfl | rfl |
    rfl | rfl | rfl | rfl
  all_goals constructor
  all_goals norm_num

lemma findClosest_mem (f : α) :
    findClosestPentatonicFrequency f ∈ (PENTATONIC_FREQUENCIES : List α) := by
  rw [findClosest_def, pent_cons]
  rcases foldl_closeStep_mem f
      [130.81, 146.83, 164.81, 196.0, 220.0, 261.63, 293.66,
       329.63, 392.0, 440.0, 523.25, 587.33, 659.25, 783.99, 880.0] (110.0 : α) with h | h
  · rw [h]
    exact List.mem_cons_self _ _
  · exact List.mem_cons_of_mem _ h

lemma findClosest_min (f : α) :
    ∀ y ∈ (PENTATONIC_FREQUENCIES : List α),
      |findClosestPentatonicFrequency f - f| ≤ |y - f| := by
  intro y hy
  rw [pent_cons] at hy
  rw [findClosest_def]
  rcases List.mem_cons.mp hy with rfl | hy
  · exact (foldl_closeStep_le f _ _).1
  · exact (foldl_closeStep_le f _ _).2 y hy

lemma findClosest_tie (f : α) :
    ∀ y ∈ (PENTATONIC_FREQUENCIES : List α),
      |y - f| = |findClosestPentatonicFrequency f - f| →
        findClosestPentatonicFrequency f ≤ y := by
  intro y hy hEq
  have hpw := pent_pairwise (α := α)
  rw [pent_cons] at hy hpw
  obtain ⟨hlt, hpt⟩ := List.pairwise_cons.mp hpw
  rw [findClosest_def] at hEq ⊢
  exact foldl_closeStep_tie f _ (110.0 : α) hlt hpt y (List.mem_cons.mp hy) hEq

/-! ### A JS-float model with an explicit non-finite value

`Option ℝ` models a JS `number`: `some r` is the finite value `r`,
`none` is a non-finite result (NaN, or an infinity - the two are
conflated because every claim-relevant operation treats them alike:
arithmetic propagates them and every `<` comparison involving them is
false).  Division by zero yields `none`; in `calculateRestPosition`
this is reached only as `0 / 0`, which is NaN in JS. -/

def jadd : Option ℝ → Option ℝ → Option ℝ
  | some a, some b => some (a + b)
  | _, _ => none

def jsub : Option ℝ → Option ℝ → Option ℝ
  | some a, some b => some (a - b)
  | _, _ => none

def jmul : Option ℝ → Option ℝ → Option ℝ
  | some a, some b => some (a * b)
  | _, _ => none

noncomputable def jdiv : Option ℝ → Option ℝ → Option ℝ
  | some a, some b => if b = 0 then none else some (a / b)
  | _, _ => none

/-- `Math.sqrt`: NaN on negative input, `none` propagates. -/
noncomputable def jsqrt : Option ℝ → Option ℝ
  | some a => if a < 0 then none else some (Real.sqrt a)
  | none => none

/-- `Math.abs`, `none` propagates (JS `Math.abs(NaN) = NaN`). -/
def jabs : Option ℝ → Option ℝ
  | some a => some |a|
  | none => none

/-- The JS `<` comparison: any comparison involving a non-finite NaN
value is false (and `Infinity < Infinity` is false as well). -/
noncomputable def jlt : Option ℝ → Option ℝ → Bool
  | some a, some b => decide (a < b)
  | _, _ => false

/-- `calculateRestPosition` (`App.vue` lines 157-176) over the JS-float
model: the exact sequence of operations of the source, with no guard on
`distance = 0`. -/
noncomputable def calculateRestPositionJS (windowCenter : Pt) (mouseX mouseY : ℝ) :
    Option ℝ × Option ℝ :=
  let radius : Option ℝ := some (200 / 2 + 20)
  let dx := jsub (some mouseX) (some windowCenter.x)
  let dy := jsub (some mouseY) (some windowCenter.y)
  let distance := jsqrt (jadd (jmul dx dx) (jmul dy dy))
  let normalizedX := jdiv dx distance
  let normalizedY := jdiv dy distance
  (jadd (some windowCenter.x) (jmul normalizedX radius),
   jadd (some windowCenter.y) (jmul normalizedY radius))

/-- `findClosestPentatonicFrequency` over the JS-float model, for
non-finite inputs: the same reduce, with JS comparison semantics. -/
noncomputable def findClosestPentatonicFrequencyJS (freq : Option ℝ) : ℝ :=
  match (PENTATONIC_FREQUENCIES : List ℝ) with
  | [] => 0
  | p :: rest =>
    rest.foldl
      (fun prev curr =>
        if jlt (jabs (jsub (some curr) freq)) (jabs (jsub (some prev) freq))
        then curr else prev) p

lemma jsub_none_right (a : Option ℝ) : jsub a none = none := by
  cases a
  · rfl
  · rfl

lemma jlt_none_right (a : Option ℝ) : jlt a none = false := by
  cases a
  · rfl
  · rfl

/-! ### Teardown (`onUnmounted`) model

The handles the teardown path reads, each either present (`some`) or
null (`none`), and the externally observable actions it issues.  The
listener removals, which no claim mentions, are omitted. -/

structure TeardownState where
  animationFrameId : Option Nat
  oscillator : Option Unit
  audioContext : Option Unit
  lfo : Option Unit
  lowpassFilter : Option Unit
  deriving DecidableEq

inductive TeardownAction where
  | cancelFrame (id : Nat)
  | stopOscillator
  | closeContext
  | stopLfo
  deriving DecidableEq

/-- `onUnmounted` (`App.vue` lines 126-145): cancel the scheduled
frame, stop the oscillator, close the context, stop the LFO - each
guarded only by a null check - then null out `lowpassFilter` (and only
`lowpassFilter`: none of the other handles is cleared, line 139). -/
def onUnmounted (s : TeardownState) : TeardownState × List TeardownAction :=
  let a1 : List TeardownAction :=
    match s.animationFrameId with
    | some i => [TeardownAction.cancelFrame i]
    | none => []
  let a2 : List TeardownAction :=
    match s.oscillator with
    | some _ => [TeardownAction.stopOscillator]
    | none => []
  let a3 : List TeardownAction :=
    match s.audioContext with
    | some _ => [TeardownAction.closeContext]
    | none => []
  let a4 : List TeardownAction :=
    match s.lfo with
    | some _ => [TeardownAction.stopLfo]
    | none => []
  (⟨s.animationFrameId, s.oscillator, s.audioContext, s.lfo, none⟩,
   a1 ++ a2 ++ a3 ++ a4)

/-- The teardown state of the earlier variant (`part_000`), which has
no filter handle. -/
structure TeardownStateV0 where
  animationFrameId : Option Nat
  oscillator : Option Unit
  audioContext : Option Unit
  lfo : Option Unit
  deriving DecidableEq

/-- The run-time error class relevant to `part_000`'s teardown. -/
inductive JsError where
  | referenceLfoOscillatorUndeclared
  deriving DecidableEq

/-- `onUnmounted` of the earlier variant (`part_000` lines 82-100).
After the frame is cancelled, the oscillator stopped and the context
closed, line 92 evaluates the identifier `lfoOscillator`, which is
declared nowhere in the file (the LFO handle is named `lfo`); in the
strict-mode module this throws a ReferenceError, so the LFO is never
stopped and the listener removals are never reached. -/
def onUnmounted_v0 (s : TeardownStateV0) : List TeardownAction × Option JsError :=
  let a1 : List TeardownAction :=
    match s.animationFrameId with
    | some i => [TeardownAction.cancelFrame i]
    | none => []
  let a2 : List TeardownAction :=
    match s.oscillator with
    | some _ => [TeardownAction.stopOscillator]
    | none => []
  let a3 : List TeardownAction :=
    match s.audioContext with
    | some _ => [TeardownAction.closeContext]
    | none => []
  (a1 ++ a2 ++ a3, some JsError.referenceLfoOscillatorUndeclared)

@[simp]
lemma Pt_mk_x (a b : ℝ) : (Pt.mk a b).x = a := rfl

@[simp]
lemma Pt_mk_y (a b : ℝ) : (Pt.mk a b).y = b := rfl

/-! ### One settling tick scales the distance to rest by 0.99 -/

lemma animate_settle_dist (s : RopeState) (h : s.isDragging = false) :
    distToRest (animate s) = 0.99 * distToRest s ∧
    (animate s).restPosition = s.restPosition ∧
    (animate s).isDragging = false := by
  have hrest : (animate s).restPosition = s.restPosition := rfl
  have hdrag : (animate s).isDragging = s.isDragging := rfl
  refine ⟨?_, hrest, by rw [hdrag, h]⟩
  have hre : (animate s).currentRopeEnd =
      ⟨lerp s.currentRopeEnd.x s.restPosition.x 0.01,
       lerp s.currentRopeEnd.y s.restPosition.y 0.01⟩ := by
    unfold animate
    rw [h]
    simp
  unfold distToRest
  rw [hrest, hre]
  unfold calculateRopeLength lerp
  simp only [Pt_mk_x, Pt_mk_y]
  have harg : (s.currentRopeEnd.x + (s.restPosition.x - s.currentRopeEnd.x) * 0.01 -
        s.restPosition.x) ^ 2 +
      (s.currentRopeEnd.y + (s.restPosition.y - s.currentRopeEnd.y) * 0.01 -
        s.restPosition.y) ^ 2 =
      0.9801 * ((s.currentRopeEnd.x - s.restPosition.x) ^ 2 +
        (s.currentRopeEnd.y - s.restPosition.y) ^ 2) := by
    ring
  rw [harg, Real.sqrt_mul (by norm_num : (0:ℝ) ≤ 0.9801)]
  rw [show (0.9801 : ℝ) = 0.99 ^ 2 by norm_num, Real.sqrt_sq (by norm_num : (0:ℝ) ≤ 0.99)]

lemma animate_iterate (s : RopeState) (h : s.isDragging = false) :
    ∀ n : ℕ, distToRest (animate^[n] s) = 0.99 ^ n * distToRest s ∧
      (animate^[n] s).restPosition = s.restPosition ∧
      (animate^[n] s).isDragging = false := by
  intro n
  induction n with
  | zero =>
    refine ⟨by simp, rfl, h⟩
  | succ n ih =>
    obtain ⟨h1, h2, h3⟩ := ih
    rw [Function.iterate_succ_apply']
    obtain ⟨g1, g2, g3⟩ := animate_settle_dist _ h3
    refine ⟨?_, by rw [g2, h2], g3⟩
    rw [g1, h1]
    ring

/-! ### Claim theorems -/

/-- C1: the claim says a release with the pointer at the window centre
must use a defined fallback direction and produce no NaN; the code has
no such fallback.  This theorem evaluates `calculateRestPosition` in the
JS-float model at the failing input `mousePosition = windowCenter =
(500, 500)`: the division `0 / 0` makes both components of the
recomputed rest position NaN (`none`). -/
theorem calculateRestPosition_center_nan :
    calculateRestPositionJS ⟨500, 500⟩ 500 500 = (none, none) := by
  norm_num [calculateRestPositionJS, jsub, jadd, jmul, jdiv, jsqrt, Real.sqrt_zero]

/-- C2 counterexample: the claim says the normalised length is clamped
at both ends and never negative; at rope length 0 it is `-3/7 < 0` (the
source applies only `Math.min(..., 1)`, no lower clamp), and the filter
cutoff computed from it is negative. -/
theorem normalizedRopeLength_zero_negative :
    normalizedRopeLength (0 : ℚ) < 0 ∧
    normalizedRopeLength (0 : ℚ) = -3 / 7 ∧
    (updateAudio ⟨0, 0⟩ ⟨0, 0⟩ 0 0).cutoffFrequency < 0 := by
  refine ⟨?_, ?_, ?_⟩
  · norm_num [normalizedRopeLength, min_def]
  · norm_num [normalizedRopeLength, min_def]
  · have h : (updateAudio ⟨0, 0⟩ ⟨0, 0⟩ 0 0).cutoffFrequency =
        0 + normalizedRopeLength (0 : ℝ) * (5000 - 0) := rfl
    rw [h]
    norm_num [normalizedRopeLength, min_def]

/-- C2 (amended): the normalised length `min((length - 150)/(500 - 150), 1)`
used by the synthesis mapping is clamped above only - it is at most 1
and equals 1 for length at or above 500, it is 0 exactly at length 150
and nonnegative above, but for length below 150 it is negative (there
is no lower clamp). -/
theorem normalizedRopeLength_clamp_above (L : α) (wc re : Pt) (len v : ℝ) :
    normalizedRopeLength L ≤ 1 ∧
    (500 ≤ L → normalizedRopeLength L = 1) ∧
    (L = 150 → normalizedRopeLength L = 0) ∧
    (L < 150 → normalizedRopeLength L < 0) ∧
    (150 ≤ L → 0 ≤ normalizedRopeLength L) ∧
    (updateAudio wc re len v).cutoffFrequency =
      0 + normalizedRopeLength len * (5000 - 0) ∧
    (updateAudio wc re len v).lfoFrequency =
      0.1 + normalizedRopeLength len * (15 - 0.1) := by
  refine ⟨min_le_right _ _, ?_, ?_, ?_, ?_, rfl, rfl⟩
  · intro h
    unfold normalizedRopeLength
    apply min_eq_right
    rw [le_div_iff₀ (by norm_num : (0 : α) < 500 - 150)]
    linarith
  · intro h
    rw [h]
    norm_num [normalizedRopeLength, min_def]
  · intro h
    unfold normalizedRopeLength
    apply lt_of_le_of_lt (min_le_left _ _)
    apply div_neg_of_neg_of_pos
    · linarith
    · norm_num
  · intro h
    unfold normalizedRopeLength
    apply le_min
    · apply div_nonneg
      · linarith
      · norm_num
    · exact zero_le_one

/-- C2 (amended) witness: at length 600 the normalised length clamps to
1; at length 100 it is negative. -/
theorem normalizedRopeLength_clamp_above_witness :
    normalizedRopeLength (600 : ℚ) = 1 ∧ normalizedRopeLength (100 : ℚ) < 0 :=
  ⟨(normalizedRopeLength_clamp_above (600 : ℚ) ⟨0, 0⟩ ⟨0, 0⟩ 0 0).2.1 (by norm_num),
   (normalizedRopeLength_clamp_above (100 : ℚ) ⟨0, 0⟩ ⟨0, 0⟩ 0 0).2.2.2.1 (by norm_num)⟩

/-- C3: `findClosestPentatonicFrequency` returns the scale member with
minimal absolute distance to the input, exact ties going to the earlier
(hence lower) member, and input 115 snaps to 110. -/
theorem findClosestPentatonic_nearest (f : α) :
    findClosestPentatonicFrequency f ∈ (PENTATONIC_FREQUENCIES : List α) ∧
    (∀ y ∈ (PENTATONIC_FREQUENCIES : List α),
      |findClosestPentatonicFrequency f - f| ≤ |y - f|) ∧
    (∀ y ∈ (PENTATONIC_FREQUENCIES : List α),
      |y - f| = |findClosestPentatonicFrequency f - f| →
        findClosestPentatonicFrequency f ≤ y) ∧
    findClosestPentatonicFrequency (115 : ℚ) = 110 := by
  refine ⟨findClosest_mem f, findClosest_min f, findClosest_tie f, ?_⟩
  norm_num [findClosestPentatonicFrequency, PENTATONIC_FREQUENCIES, closeStep,
    List.foldl, abs_of_nonneg, abs_of_nonpos]

/-- C3 witness: at input 115 the result is a scale member and the
tie-break bound applies against the candidate 110. -/
theorem findClosestPentatonic_nearest_witness :
    findClosestPentatonicFrequency (115 : ℚ) ∈ (PENTATONIC_FREQUENCIES : List ℚ) ∧
    findClosestPentatonicFrequency (115 : ℚ) ≤ 110 := by
  refine ⟨(findClosestPentatonic_nearest (115 : ℚ)).1, ?_⟩
  apply (findClosestPentatonic_nearest (115 : ℚ)).2.2.1 110
  · norm_num [PENTATONIC_FREQUENCIES]
  · norm_num [findClosestPentatonicFrequency, PENTATONIC_FREQUENCIES, closeStep,
      List.foldl, abs_of_nonneg, abs_of_nonpos]

/-- C7: the per-tick gain target is 0 at or below length 150, above it
equals the clamped normalised length times the cap (0.4 in `App.vue`,
0.75 in the earlier variant), hence always lies in `[0, cap]` and never
reaches 1. -/
theorem gainTarget_bounded (wc re : Pt) (L v : ℝ) :
    (L ≤ 150 → (updateAudio wc re L v).gainTarget = 0 ∧
      (updateAudio_v0 wc re L v).gainTarget = 0) ∧
    (150 < L → (updateAudio wc re L v).gainTarget =
        min ((L - 150) / (500 - 150)) 1 * 0.4 ∧
      (updateAudio_v0 wc re L v).gainTarget =
        min ((L - 150) / (500 - 150)) 1 * 0.75) ∧
    0 ≤ (updateAudio wc re L v).gainTarget ∧
    (updateAudio wc re L v).gainTarget ≤ 0.4 ∧
    0 ≤ (updateAudio_v0 wc re L v).gainTarget ∧
    (updateAudio_v0 wc re L v).gainTarget ≤ 0.75 ∧
    (updateAudio wc re L v).gainTarget < 1 ∧
    (updateAudio_v0 wc re L v).gainTarget < 1 := by
  have hg : (updateAudio wc re L v).gainTarget =
      if (150 : ℝ) < L then min ((L - 150) / (500 - 150)) 1 * 0.4 else 0 := rfl
  have hg0 : (updateAudio_v0 wc re L v).gainTarget =
      if (150 : ℝ) < L then min ((L - 150) / (500 - 150)) 1 * 0.75 else 0 := rfl
  rw [hg, hg0]
  by_cases h : (150 : ℝ) < L
  · have hpos : 0 < (L - 150) / (500 - 150) := by
      apply div_pos
      · linarith
      · norm_num
    have hmin0 : 0 ≤ min ((L - 150) / (500 - 150)) 1 := le_min (le_of_lt hpos) zero_le_one
    have hmin1 : min ((L - 150) / (500 - 150)) 1 ≤ 1 := min_le_right _ _
    simp only [if_pos h]
    refine ⟨?_, fun _ => by simp, ?_, ?_, ?_, ?_, ?_, ?_⟩
    · intro hle
      linarith
    · nlinarith
    · nlinarith
    · nlinarith
    · nlinarith
    · nlinarith
    · nlinarith
  · simp only [if_neg h]
    refine ⟨fun _ => by simp, ?_, le_refl 0, by norm_num, le_refl 0, by norm_num,
      by norm_num, by norm_num⟩
    intro hlt
    exact absurd hlt h

/-- C7 witness: at rope length 100 (below the threshold) both gain
targets evaluate to 0. -/
theorem gainTarget_bounded_witness :
    (updateAudio ⟨0, 0⟩ ⟨0, 0⟩ 100 0).gainTarget = 0 ∧
    (updateAudio_v0 ⟨0, 0⟩ ⟨0, 0⟩ 100 0).gainTarget = 0 :=
  (gainTarget_bounded ⟨0, 0⟩ ⟨0, 0⟩ 100 0).1 (by norm_num)

/-- C9 counterexample: the claim says repeated teardown is a safe no-op
raising no error.  In `App.vue` only `lowpassFilter` is cleared, so a
second `onUnmounted` on the state left by the first one re-cancels the
frame, re-stops the oscillator and LFO and re-closes the context (not a
no-op; re-closing a closed context is an InvalidStateError rejection);
and in the earlier variant teardown always raises a ReferenceError
(undeclared `lfoOscillator`). -/
theorem teardown_repeat_not_noop :
    (onUnmounted (onUnmounted ⟨some 1, some (), some (), some (), some ()⟩).1).2 =
      [TeardownAction.cancelFrame 1, TeardownAction.stopOscillator,
       TeardownAction.closeContext, TeardownAction.stopLfo] ∧
    (onUnmounted_v0 ⟨some 1, some (), some (), some ()⟩).2 =
      some JsError.referenceLfoOscillatorUndeclared :=
  ⟨rfl, rfl⟩

/-- C9 (amended): `App.vue`'s teardown cancels the scheduled frame,
stops the oscillator and the LFO and closes the context whenever the
corresponding handle exists (so with audio never initialised the audio
part is a no-op and no error is raised), and it issues no action at all
iff every handle is null; but it clears only `lowpassFilter`, so it is
not guarded against repetition, and the earlier variant's teardown
always raises a ReferenceError. -/
theorem teardown_effects (s : TeardownState) :
    (onUnmounted s).1 = ⟨s.animationFrameId, s.oscillator, s.audioContext, s.lfo, none⟩ ∧
    ((onUnmounted s).2 = [] ↔
      s.animationFrameId = none ∧ s.oscillator = none ∧
        s.audioContext = none ∧ s.lfo = none) ∧
    (s.oscillator = some () → TeardownAction.stopOscillator ∈ (onUnmounted s).2) ∧
    (s.audioContext = some () → TeardownAction.closeContext ∈ (onUnmounted s).2) ∧
    (s.lfo = some () → TeardownAction.stopLfo ∈ (onUnmounted s).2) ∧
    (∀ i, s.animationFrameId = some i → TeardownAction.cancelFrame i ∈ (onUnmounted s).2) ∧
    (onUnmounted_v0 ⟨s.animationFrameId, s.oscillator, s.audioContext, s.lfo⟩).2 =
      some JsError.referenceLfoOscillatorUndeclared := by
  obtain ⟨a, o, c, l, p⟩ := s
  rcases a with _ | i <;> rcases o with _ | ⟨⟩ <;> rcases c with _ | ⟨⟩ <;>
    rcases l with _ | ⟨⟩ <;>
    simp [onUnmounted, onUnmounted_v0]

/-- C9 (amended) witness: on a fully initialised state the teardown
stops the oscillator. -/
theorem teardown_effects_witness :
    TeardownAction.stopOscillator ∈
      (onUnmounted ⟨some 1, some (), some (), some (), some ()⟩).2 :=
  (teardown_effects ⟨some 1, some (), some (), some (), some ()⟩).2.2.1 rfl

/-- C10: for every input in the idealised number model the snapped
pitch is a member of the fixed scale, hence lies in `[110, 880]`; and
for a non-finite input (NaN/infinite, `none` in the JS-float model)
every comparison is false, so the reduce returns the first member 110,
again a scale member. -/
theorem findClosestPentatonic_mem_range (f : α) :
    findClosestPentatonicFrequency f ∈ (PENTATONIC_FREQUENCIES : List α) ∧
    (110 : α) ≤ findClosestPentatonicFrequency f ∧
    findClosestPentatonicFrequency f ≤ 880 ∧
    findClosestPentatonicFrequencyJS none = 110 ∧
    findClosestPentatonicFrequencyJS none ∈ (PENTATONIC_FREQUENCIES : List ℝ) := by
  have hmem := findClosest_mem f
  have hb := pent_bounds (α := α) _ hmem
  have hjs : findClosestPentatonicFrequencyJS none = 110 := by
    norm_num [findClosestPentatonicFrequencyJS, PENTATONIC_FREQUENCIES, List.foldl,
      jsub_none_right, jabs, jlt_none_right]
  refine ⟨hmem, hb.1, hb.2, hjs, ?_⟩
  rw [hjs]
  norm_num [PENTATONIC_FREQUENCIES]

/-- C4 counterexample: the claim says the per-tick carrier frequency
target equals the snapped pitch plus the modulation depth; in the
earlier variant (`part_000` line 218) the target is the unsnapped base
frequency plus the depth: at centre `(0,0)`, rope end `(1,0)` (angle
`π/2`, base 650 Hz) and depth 3 the target is 653, yet 650 is not a
member of the scale, so the pitch component sent is not snapped. -/
theorem oscTarget_v0_unsnapped :
    (updateAudio_v0 ⟨0, 0⟩ ⟨1, 0⟩ 300 3).oscFrequencyTarget = 653 ∧
    (650 : ℝ) ∉ (PENTATONIC_FREQUENCIES : List ℝ) := by
  constructor
  · have h : (updateAudio_v0 ⟨0, 0⟩ ⟨1, 0⟩ 300 3).oscFrequencyTarget =
        (200 + ((calculateAngle 0 0 1 0 + π) / (2 * π)) * 600) + 3 := rfl
    rw [h]
    have ha : calculateAngle 0 0 1 0 = π / 2 := by
      unfold calculateAngle atan2
      norm_num
    rw [ha]
    field_simp
    ring
  · norm_num [PENTATONIC_FREQUENCIES]

/-- C4 (amended): in `App.vue` the per-tick carrier frequency target is
the snapped pitch derived from the angle plus the current
modulation-depth value (hence differs from the snapped pitch alone
whenever the depth is nonzero); in the earlier variant it is the
unsnapped base frequency plus the depth. -/
theorem oscTarget_snapped_plus_depth (wc re : Pt) (L v : ℝ) :
    (updateAudio wc re L v).oscFrequencyTarget =
      findClosestPentatonicFrequency
        (110 + ((calculateAngle wc.x wc.y re.x re.y + π) / (2 * π)) * 770) + v ∧
    (updateAudio_v0 wc re L v).oscFrequencyTarget =
      (200 + ((calculateAngle wc.x wc.y re.x re.y + π) / (2 * π)) * 600) + v ∧
    (v ≠ 0 → (updateAudio wc re L v).oscFrequencyTarget ≠
      findClosestPentatonicFrequency
        (110 + ((calculateAngle wc.x wc.y re.x re.y + π) / (2 * π)) * 770)) := by
  refine ⟨rfl, rfl, ?_⟩
  intro hv
  have h : (updateAudio wc re L v).oscFrequencyTarget =
      findClosestPentatonicFrequency
        (110 + ((calculateAngle wc.x wc.y re.x re.y + π) / (2 * π)) * 770) + v := rfl
  rw [h]
  intro hEq
  apply hv
  linarith [hEq]

/-- C4 (amended) witness: with modulation depth 3 the target differs
from the snapped pitch alone. -/
theorem oscTarget_snapped_plus_depth_witness :
    (updateAudio ⟨0, 0⟩ ⟨1, 0⟩ 300 3).oscFrequencyTarget ≠
      findClosestPentatonicFrequency
        (110 + ((calculateAngle 0 0 1 0 + π) / (2 * π)) * 770) :=
  (oscTarget_snapped_plus_depth ⟨0, 0⟩ ⟨1, 0⟩ 300 3).2.2 (by norm_num)

/-- C5: after a release with the pointer distinct from the window
centre, the recomputed rest position lies at distance exactly 120 (the
fixed radius `200 / 2 + 20`) from the centre, in the direction from the
centre toward the pointer; and concretely, release at pointer
`(600, 500)` with centre `(500, 500)` yields rest position
`(620, 500)`. -/
theorem restPosition_on_circle (s : RopeState)
    (h : s.mousePosition ≠ s.windowCenter) :
    calculateRopeLength s.windowCenter.x s.windowCenter.y
        (handleMouseUp s).restPosition.x (handleMouseUp s).restPosition.y = 120 ∧
    (∃ t : ℝ, 0 < t ∧
      (handleMouseUp s).restPosition.x - s.windowCenter.x =
        t * (s.mousePosition.x - s.windowCenter.x) ∧
      (handleMouseUp s).restPosition.y - s.windowCenter.y =
        t * (s.mousePosition.y - s.windowCenter.y)) ∧
    (handleMouseUp ⟨true, ⟨600, 500⟩, ⟨500, 500⟩, ⟨0, 0⟩, ⟨0, 0⟩⟩).restPosition =
      ⟨620, 500⟩ := by
  have hxy : s.mousePosition.x ≠ s.windowCenter.x ∨
      s.mousePosition.y ≠ s.windowCenter.y := by
    by_contra hc
    push_neg at hc
    exact h (Pt.ext hc.1 hc.2)
  have hsum : 0 < (s.mousePosition.x - s.windowCenter.x) *
        (s.mousePosition.x - s.windowCenter.x) +
      (s.mousePosition.y - s.windowCenter.y) *
        (s.mousePosition.y - s.windowCenter.y) := by
    rcases hxy with hh | hh
    · exact add_pos_of_pos_of_nonneg (mul_self_pos.mpr (sub_ne_zero.mpr hh))
        (mul_self_nonneg _)
    · exact add_pos_of_nonneg_of_pos (mul_self_nonneg _)
        (mul_self_pos.mpr (sub_ne_zero.mpr hh))
  have hd : 0 < Real.sqrt ((s.mousePosition.x - s.windowCenter.x) *
        (s.mousePosition.x - s.windowCenter.x) +
      (s.mousePosition.y - s.windowCenter.y) *
        (s.mousePosition.y - s.windowCenter.y)) :=
    Real.sqrt_pos.mpr hsum
  have hd2 : Real.sqrt ((s.mousePosition.x - s.windowCenter.x) *
        (s.mousePosition.x - s.windowCenter.x) +
      (s.mousePosition.y - s.windowCenter.y) *
        (s.mousePosition.y - s.windowCenter.y)) *
      Real.sqrt ((s.mousePosition.x - s.windowCenter.x) *
        (s.mousePosition.x - s.windowCenter.x) +
      (s.mousePosition.y - s.windowCenter.y) *
        (s.mousePosition.y - s.windowCenter.y)) =
      (s.mousePosition.x - s.windowCenter.x) *
        (s.mousePosition.x - s.windowCenter.x) +
      (s.mousePosition.y - s.windowCenter.y) *
        (s.mousePosition.y - s.windowCenter.y) :=
    Real.mul_self_sqrt (le_of_lt hsum)
  have hrp : (handleMouseUp s).restPosition =
      ⟨s.windowCenter.x + (s.mousePosition.x - s.windowCenter.x) /
          Real.sqrt ((s.mousePosition.x - s.windowCenter.x) *
              (s.mousePosition.x - s.windowCenter.x) +
            (s.mousePosition.y - s.windowCenter.y) *
              (s.mousePosition.y - s.windowCenter.y)) * (200 / 2 + 20),
       s.windowCenter.y + (s.mousePosition.y - s.windowCenter.y) /
          Real.sqrt ((s.mousePosition.x - s.windowCenter.x) *
              (s.mousePosition.x - s.windowCenter.x) +
            (s.mousePosition.y - s.windowCenter.y) *
              (s.mousePosition.y - s.windowCenter.y)) * (200 / 2 + 20)⟩ := rfl
  refine ⟨?_, ?_, ?_⟩
  · rw [hrp]
    unfold calculateRopeLength
    simp only [Pt_mk_x, Pt_mk_y]
    have harg : (s.windowCenter.x + (s.mousePosition.x - s.windowCenter.x) /
          Real.sqrt ((s.mousePosition.x - s.windowCenter.x) *
              (s.mousePosition.x - s.windowCenter.x) +
            (s.mousePosition.y - s.windowCenter.y) *
              (s.mousePosition.y - s.windowCenter.y)) * (200 / 2 + 20) -
          s.windowCenter.x) ^ 2 +
        (s.windowCenter.y + (s.mousePosition.y - s.windowCenter.y) /
          Real.sqrt ((s.mousePosition.x - s.windowCenter.x) *
              (s.mousePosition.x - s.windowCenter.x) +
            (s.mousePosition.y - s.windowCenter.y) *
              (s.mousePosition.y - s.windowCenter.y)) * (200 / 2 + 20) -
          s.windowCenter.y) ^ 2 = 120 ^ 2 := by
      have hD0 : Real.sqrt ((s.mousePosition.x - s.windowCenter.x) *
            (s.mousePosition.x - s.windowCenter.x) +
          (s.mousePosition.y - s.windowCenter.y) *
            (s.mousePosition.y - s.windowCenter.y)) ≠ 0 := ne_of_gt hd
      field_simp
      nlinarith [hd2]
    rw [harg, Real.sqrt_sq (by norm_num : (0:ℝ) ≤ 120)]
  · refine ⟨(200 / 2 + 20) / Real.sqrt ((s.mousePosition.x - s.windowCenter.x) *
        (s.mousePosition.x - s.windowCenter.x) +
      (s.mousePosition.y - s.windowCenter.y) *
        (s.mousePosition.y - s.windowCenter.y)),
      div_pos (by norm_num) hd, ?_, ?_⟩
    · rw [hrp]
      simp only [Pt_mk_x]
      ring
    · rw [hrp]
      simp only [Pt_mk_y]
      ring
  · have h2 : Real.sqrt (10000 : ℝ) = 100 := by
      rw [show (10000 : ℝ) = 100 ^ 2 by norm_num,
        Real.sqrt_sq (by norm_num : (0:ℝ) ≤ 100)]
    apply Pt.ext
    · norm_num [handleMouseUp, calculateRestPosition, h2]
    · norm_num [handleMouseUp, calculateRestPosition, h2]

/-- C5 witness: on the release scenario of the spec the rest position
is at distance 120 from the centre. -/
theorem restPosition_on_circle_witness :
    calculateRopeLength (500 : ℝ) 500
      (handleMouseUp ⟨true, ⟨600, 500⟩, ⟨500, 500⟩, ⟨0, 0⟩, ⟨0, 0⟩⟩).restPosition.x
      (handleMouseUp ⟨true, ⟨600, 500⟩, ⟨500, 500⟩, ⟨0, 0⟩, ⟨0, 0⟩⟩).restPosition.y =
      120 :=
  (restPosition_on_circle ⟨true, ⟨600, 500⟩, ⟨500, 500⟩, ⟨0, 0⟩, ⟨0, 0⟩⟩
    (fun hEq => absurd (congrArg Pt.x hEq) (by norm_num))).1

/-- C6: `calculateRopeLength` and `calculateAngle` are pure functions
of the two points (they are functions of their four coordinates by
construction); the length is always nonnegative and the angle always
lies in the interval `(-π, π]`. -/
theorem ropeGeometry_range (x1 y1 x2 y2 : ℝ) :
    0 ≤ calculateRopeLength x1 y1 x2 y2 ∧
    -π < calculateAngle x1 y1 x2 y2 ∧
    calculateAngle x1 y1 x2 y2 ≤ π :=
  ⟨Real.sqrt_nonneg _, (atan2_range _ _).1, (atan2_range _ _).2⟩

/-- C8: while not dragging and with the rest position held fixed (as
every tick indeed keeps it), each tick strictly decreases the distance
from the rope end to the rest position (the lerp with factor 0.01
scales it by exactly 0.99), and for every positive ε the distance is
within ε after a bounded number of ticks. -/
theorem settling_converges (s : RopeState) (hdrag : s.isDragging = false)
    (hne : s.currentRopeEnd ≠ s.restPosition) :
    (∀ n : ℕ, (animate^[n] s).restPosition = s.restPosition) ∧
    (∀ n : ℕ, distToRest (animate^[n + 1] s) < distToRest (animate^[n] s)) ∧
    (∀ ε : ℝ, 0 < ε → ∃ N : ℕ, ∀ n : ℕ, N ≤ n →
      distToRest (animate^[n] s) ≤ ε) := by
  have hpos : 0 < distToRest s := by
    unfold distToRest calculateRopeLength
    apply Real.sqrt_pos.mpr
    have hx : s.currentRopeEnd.x ≠ s.restPosition.x ∨
        s.currentRopeEnd.y ≠ s.restPosition.y := by
      by_contra hc
      push_neg at hc
      exact hne (Pt.ext hc.1 hc.2)
    rcases hx with hh | hh
    · have h1 : 0 < |s.currentRopeEnd.x - s.restPosition.x| :=
        abs_pos.mpr (sub_ne_zero.mpr hh)
      nlinarith [sq_abs (s.currentRopeEnd.x - s.restPosition.x),
        sq_nonneg (s.currentRopeEnd.y - s.restPosition.y)]
    · have h1 : 0 < |s.currentRopeEnd.y - s.restPosition.y| :=
        abs_pos.mpr (sub_ne_zero.mpr hh)
      nlinarith [sq_abs (s.currentRopeEnd.y - s.restPosition.y),
        sq_nonneg (s.currentRopeEnd.x - s.restPosition.x)]
  refine ⟨fun n => (animate_iterate s hdrag n).2.1, ?_, ?_⟩
  · intro n
    rw [(animate_iterate s hdrag n).1, (animate_iterate s hdrag (n + 1)).1]
    have hp : (0:ℝ) < 0.99 ^ n * distToRest s :=
      mul_pos (pow_pos (by norm_num) n) hpos
    calc 0.99 ^ (n + 1) * distToRest s
        = 0.99 * (0.99 ^ n * distToRest s) := by ring
    _ < 1 * (0.99 ^ n * distToRest s) := by nlinarith
    _ = 0.99 ^ n * distToRest s := by ring
  · intro ε hε
    obtain ⟨N, hN⟩ := exists_pow_lt_of_lt_one (div_pos hε hpos)
      (by norm_num : (0.99:ℝ) < 1)
    refine ⟨N, fun n hn => ?_⟩
    rw [(animate_iterate s hdrag n).1]
    have hpow : (0.99:ℝ) ^ n ≤ 0.99 ^ N :=
      pow_le_pow_of_le_one (by norm_num) (by norm_num) hn
    have hlt : (0.99:ℝ) ^ N * distToRest s < ε := by
      rw [← lt_div_iff₀ hpos]
      exact hN
    calc (0.99:ℝ) ^ n * distToRest s
        ≤ 0.99 ^ N * distToRest s :=
          mul_le_mul_of_nonneg_right hpow (le_of_lt hpos)
    _ ≤ ε := le_of_lt hlt

/-- C8 witness: one settling tick from rope end `(7, 0)` toward rest
position `(0, 0)` strictly decreases the distance. -/
theorem settling_converges_witness :
    distToRest (animate^[0 + 1] (⟨false, ⟨0, 0⟩, ⟨0, 0⟩, ⟨0, 0⟩, ⟨7, 0⟩⟩ : RopeState)) <
      distToRest (animate^[0] (⟨false, ⟨0, 0⟩, ⟨0, 0⟩, ⟨0, 0⟩, ⟨7, 0⟩⟩ : RopeState)) :=
  (settling_converges ⟨false, ⟨0, 0⟩, ⟨0, 0⟩, ⟨0, 0⟩, ⟨7, 0⟩⟩ rfl
    (fun hEq => absurd (congrArg Pt.x hEq) (by norm_num))).2.1 0

end WebGenVis
